import Mathlib

/-!
Shallow embedding of the `AxiosService` request-lifecycle manager
(`src/index.js`) and proofs about its specified behavior.

The JavaScript class is embedded as pure Lean functions over an explicit
state record (`RunState`).  Asynchronous network calls (the injected HTTP
transport and the token-refresh endpoint) are modelled as oracles indexed by
how many calls of that kind have been issued so far, so that a single run is
a deterministic function of the oracle.  Cooperative concurrency (needed only
for `getToken`) is modelled separately as a small-step task system driven by
an explicit interleaving schedule.
-/

namespace AxNext

/-- JavaScript scalar values, with JavaScript truthiness.  Payloads, cached
values and query-parameter values are drawn from this type. -/
inductive JVal where
  | null
  | undef
  | bool (b : Bool)
  | num (n : Int)
  | str (s : String)
deriving DecidableEq, Repr

/-- JavaScript truthiness: `null`, `undefined`, `false`, `0` and `""` are
falsy, everything else is truthy. -/
def JVal.truthy : JVal → Bool
  | .null => false
  | .undef => false
  | .bool b => b
  | .num n => n != 0
  | .str _s => !_s.isEmpty

/-- `JSON.stringify` on a scalar value. -/
def JVal.stringify : JVal → String
  | .null => "null"
  | .undef => "undefined"
  | .bool true => "true"
  | .bool false => "false"
  | .num n => toString n
  | .str s => "\"" ++ s ++ "\""

/-- `JSON.stringify` of the field list of a flat object, without the
surrounding braces. -/
def stringifyPairs : List (String × JVal) → String
  | [] => ""
  | [(k, v)] => "\"" ++ k ++ "\":" ++ v.stringify
  | (k, v) :: rest => "\"" ++ k ++ "\":" ++ v.stringify ++ "," ++ stringifyPairs rest

/-- `JSON.stringify` of a flat object given as a field list. -/
def stringifyObj (ps : List (String × JVal)) : String :=
  "\x7b" ++ stringifyPairs ps ++ "\x7d"

/-- The configuration flags of the service that the claims depend on
(from the resolved constructor config of `AxiosService`). -/
structure Cfg where
  cacheEnabled : Bool
  cacheTTL : Nat
  tokenRefreshEnabled : Bool
  requestCancellation : Bool
  performanceMonitoring : Bool
deriving DecidableEq, Repr

/-- An axios request config as it flows through the interceptor pipeline:
the verb, url, query params and headers, plus the fields the interceptors
write (`metadata.startTime`, `cancelToken`) and the per-request
`cancelPrevious` opt-out read by the cancellation interceptor. -/
structure ReqConfig where
  method : String
  url : String
  params : List (String × JVal)
  headers : List (String × String)
  cancelPrevious : Option Bool
  cancelToken : Option Nat
  startTime : Option Nat
deriving DecidableEq, Repr

/-- The rejection values the service can propagate, mirroring the three
shapes `handleError` distinguishes: an error with `error.response`
(server responded; carries `error.config`, the original request), an error
with only `error.request` (no response), and a bare error message. -/
inductive AErr where
  | httpResponse (status : Nat) (data : JVal) (config : ReqConfig)
  | netRequest (url : String)
  | other (msg : String)
deriving DecidableEq, Repr

/-- One reply of the injected HTTP transport: either the server responded
with a status and a body, or no response was received. -/
inductive TransportReply where
  | reply (status : Nat) (data : JVal)
  | netErr
deriving DecidableEq, Repr

/-- One reply of the token-refresh endpoint
(`axios.post(this.refreshTokenURL, ...)`): either
`{token, expiresIn}` or a rejection. -/
inductive RefreshReply where
  | ok (token : String) (expiresIn : Nat)
  | err (e : AErr)
deriving DecidableEq, Repr

/-- The two network oracles, indexed by how many exchanges of that kind
have been issued so far. -/
structure Transport where
  http : Nat → TransportReply
  refresh : Nat → RefreshReply

/-- Observable events of a run, used to state ordering claims. -/
inductive Event where
  | cacheLookup (key : String)
  | stampStart
  | cancelPrev (requestId : String)
  | track (requestId : String)
  | dispatchReq (method : String) (url : String)
  | refreshCall
deriving DecidableEq, Repr

/-- The mutable state of one `AxiosService` instance, plus run bookkeeping:
`cache` holds `(key, value, insertedAt)` entries, `pending` is the
pending-request registry (`requestId ↦ cancel-token source id`), `token` and
`tokenExpiration` are the token manager's state, `now` is the current clock
(milliseconds), and the counters index the two oracles. -/
structure RunState where
  cache : List (String × JVal × Nat)
  pending : List (String × Nat)
  token : Option String
  tokenExpiration : Option Nat
  now : Nat
  transportCalls : Nat
  refreshCalls : Nat
  nextCancelId : Nat
  events : List Event
deriving DecidableEq, Repr

/-- Append an observable event. -/
def pushEvent (st : RunState) (e : Event) : RunState :=
  { st with events := st.events ++ [e] }

/-- JavaScript `String.prototype.toUpperCase` on ASCII method names, written
over the character list so that it evaluates inside the kernel. -/
def toUpperCase (s : String) : String :=
  String.mk (s.data.map Char.toUpper)

/-- `getRequestId(config)`:
`config.method.toUpperCase() + config.url + JSON.stringify(config.params || {})`. -/
def getRequestId (c : ReqConfig) : String :=
  toUpperCase c.method ++ c.url ++ stringifyObj c.params

/-- Lookup in the pending-request registry (`this.pendingRequests.get`). -/
def lookupPending (p : List (String × Nat)) (k : String) : Option Nat :=
  match p.find? (fun e => e.1 == k) with
  | some e => some e.2
  | none => none

/-- `this.pendingRequests.delete(requestId)`. -/
def removePending (p : List (String × Nat)) (k : String) : List (String × Nat) :=
  p.filter (fun e => e.1 != k)

/-- `this.pendingRequests.set(requestId, ...)` (replaces any entry with the
same key). -/
def setPending (p : List (String × Nat)) (k : String) (v : Nat) : List (String × Nat) :=
  (k, v) :: removePending p k

/-- `cancelPendingRequests(config)`: if a record with this request id exists,
cancel its token source and delete the record. -/
def cancelPendingRequests (st : RunState) (c : ReqConfig) : RunState :=
  let rid := getRequestId c
  match lookupPending st.pending rid with
  | some _ => pushEvent { st with pending := removePending st.pending rid } (.cancelPrev rid)
  | none => st

/-- `trackRequest(config, cancelTokenSource)`: register the request. -/
def trackRequest (st : RunState) (c : ReqConfig) (srcId : Nat) : RunState :=
  pushEvent { st with pending := setPending st.pending (getRequestId c) srcId }
    (.track (getRequestId c))

/-- The request interceptor installed by `setupRequestCancellation`: create a
fresh cancel-token source, attach it to the config, cancel any pending
duplicate unless `config.cancelPrevious === false`, then track the request. -/
def cancelInterceptor (st : RunState) (c : ReqConfig) : RunState × ReqConfig :=
  let srcId := st.nextCancelId
  let st1 := { st with nextCancelId := srcId + 1 }
  let c1 := { c with cancelToken := some srcId }
  let st2 := if c1.cancelPrevious != some false then cancelPendingRequests st1 c1 else st1
  (trackRequest st2 c1 srcId, c1)

/-- The request interceptor installed by `setupPerformanceMonitoring`:
stamp `config.metadata = { startTime: new Date() }`. -/
def perfInterceptor (st : RunState) (c : ReqConfig) : RunState × ReqConfig :=
  (pushEvent st .stampStart, { c with startTime := some st.now })

/-- The pre-send interceptor chain of `customAxios`.  Axios runs request
interceptors in reverse registration order (it unshifts them into the
dispatch chain), so the cancellation interceptor (registered second) runs
before the performance-monitoring interceptor; each only runs when its
feature flag enabled its registration. -/
def presend (cfg : Cfg) (st : RunState) (c : ReqConfig) : RunState × ReqConfig :=
  let p1 := if cfg.requestCancellation then cancelInterceptor st c else (st, c)
  if cfg.performanceMonitoring then perfInterceptor p1.1 p1.2 else p1

/-- A fulfilled axios response envelope `{status, data, config, ...}`. -/
structure HttpResponse where
  status : Nat
  data : JVal
  config : ReqConfig
deriving DecidableEq, Repr

/-- One dispatch through `customAxios`: run the request interceptors, issue
the exchange, and either fulfil with the response envelope (2xx, axios's
default `validateStatus`) or reject with the classified error shape. -/
def dispatch (cfg : Cfg) (tr : Transport) (st : RunState) (c : ReqConfig) :
    RunState × Except AErr HttpResponse :=
  let p := presend cfg st c
  let c1 := p.2
  let n := p.1.transportCalls
  let st2 := pushEvent { p.1 with transportCalls := n + 1 } (.dispatchReq c1.method c1.url)
  match tr.http n with
  | .reply status data =>
    if 200 ≤ status ∧ status < 300 then
      (st2, .ok { status := status, data := data, config := c1 })
    else
      (st2, .error (.httpResponse status data c1))
  | .netErr => (st2, .error (.netRequest c1.url))

/-- `refreshToken()`: POST to the refresh endpoint; on success set
`this.token` and `this.tokenExpiration = now + expiresIn * 1000`; on failure
reject with the underlying error, leaving both fields untouched. -/
def refreshToken (tr : Transport) (st : RunState) : RunState × Except AErr Unit :=
  let m := st.refreshCalls
  let st1 := pushEvent { st with refreshCalls := m + 1 } .refreshCall
  match tr.refresh m with
  | .ok t expiresIn =>
    ({ st1 with token := some t, tokenExpiration := some (st1.now + expiresIn * 1000) }, .ok ())
  | .err e => (st1, .error e)

/-- JavaScript truthiness of `this.token` (absent or empty string is falsy). -/
def strTruthy : Option String → Bool
  | some s => !s.isEmpty
  | none => false

/-- `isTokenExpired()`: `!this.tokenExpiration || new Date() >= this.tokenExpiration`. -/
def isTokenExpired (st : RunState) : Bool :=
  match st.tokenExpiration with
  | none => true
  | some e => e ≤ st.now

/-- `getToken()` run to completion by a single task (no interleaving). -/
def getTokenM (tr : Transport) (st : RunState) : RunState × Except AErr (Option String) :=
  if !strTruthy st.token || isTokenExpired st then
    match refreshToken tr st with
    | (st1, .ok ()) => (st1, .ok st1.token)
    | (st1, .error e) => (st1, .error e)
  else
    (st, .ok st.token)

/-- What a settled call returns: `handleSuccess` unwraps to `response.data`
(`payload`), while the 401 retry path resolves with the raw response
envelope returned by `this.customAxios.request(originalRequest)`. -/
inductive RetVal where
  | payload (v : JVal)
  | envelope (r : HttpResponse)
deriving DecidableEq, Repr

/-- `handleError(error)`: on a 401 response with token refresh enabled,
refresh and re-issue the original request once, resolving with its raw
outcome (a failure of the retry, like a refresh failure, lands in the
`.catch` and is rejected as-is); every other error is logged and rejected
unchanged. -/
def handleError (cfg : Cfg) (tr : Transport) (st : RunState) (e : AErr) :
    RunState × Except AErr RetVal :=
  match e with
  | .httpResponse status _data originalRequest =>
    if status = 401 ∧ cfg.tokenRefreshEnabled then
      match refreshToken tr st with
      | (st1, .ok ()) =>
        match dispatch cfg tr st1 originalRequest with
        | (st2, .ok resp) => (st2, .ok (.envelope resp))
        | (st2, .error retryErr) => (st2, .error retryErr)
      | (st1, .error refreshErr) => (st1, .error refreshErr)
    else
      (st, .error e)
  | _ => (st, .error e)

/-- The cache key built by `get`: `` `${url}_${JSON.stringify(params)}` ``. -/
def cacheKeyOf (url : String) (params : List (String × JVal)) : String :=
  url ++ "_" ++ stringifyObj params

/-- `this.cache ? this.cache.get(cacheKey) : null`, with node-cache's
read-time expiry: an entry older than its TTL (`stdTTL` seconds) is absent. -/
def lookupCache (cfg : Cfg) (st : RunState) (key : String) : Option JVal :=
  if cfg.cacheEnabled then
    match st.cache.find? (fun e => e.1 == key) with
    | some e => if st.now < e.2.2 + cfg.cacheTTL * 1000 then some e.2.1 else none
    | none => none
  else none

/-- Whether the `if (cachedResponse)` guard in `get` fires: a present and
truthy cached value. -/
def cacheTruthyHit (cfg : Cfg) (st : RunState) (key : String) : Bool :=
  match lookupCache cfg st key with
  | some v => v.truthy
  | none => false

/-- `this.cache.set(cacheKey, value)` (replaces, stamped with the clock). -/
def cacheSet (cache : List (String × JVal × Nat)) (key : String) (v : JVal) (t : Nat) :
    List (String × JVal × Nat) :=
  (key, v, t) :: cache.filter (fun e => e.1 != key)

/-- The axios request config built by `get(url, params, config)`:
`this.customAxios.get(url, { ...config, params })`. -/
def getReqConfig (url : String) (params : List (String × JVal)) (cp : Option Bool) : ReqConfig :=
  { method := "get", url := url, params := params, headers := [],
    cancelPrevious := cp, cancelToken := none, startTime := none }

/-- The body of `get` after the cache guard declined to short-circuit:
dispatch, populate the cache with `response.data` on success and unwrap via
`handleSuccess`, or run `handleError`. -/
def getMiss (cfg : Cfg) (tr : Transport) (st : RunState) (url : String)
    (params : List (String × JVal)) (cp : Option Bool) (cacheKey : String) :
    RunState × Except AErr RetVal :=
  match dispatch cfg tr st (getReqConfig url params cp) with
  | (st1, .ok resp) =>
    let st2 := if cfg.cacheEnabled then
        { st1 with cache := cacheSet st1.cache cacheKey resp.data st1.now } else st1
    (st2, .ok (.payload resp.data))
  | (st1, .error e) => handleError cfg tr st1 e

/-- `get(url, params, config)`: consult the cache (a present truthy value is
returned directly), otherwise dispatch and settle via
`handleSuccess`/`handleError`. -/
def getM (cfg : Cfg) (tr : Transport) (st : RunState) (url : String)
    (params : List (String × JVal)) (cp : Option Bool) : RunState × Except AErr RetVal :=
  let key := cacheKeyOf url params
  let st1 := if cfg.cacheEnabled then pushEvent st (.cacheLookup key) else st
  match lookupCache cfg st key with
  | some v =>
    if v.truthy then (st1, .ok (.payload v))
    else getMiss cfg tr st1 url params cp key
  | none => getMiss cfg tr st1 url params cp key

/-- The axios request config built by a write-verb call
(`config.params` is absent, hence `[]` after `|| \x7b\x7d`). -/
def verbReqConfig (method url : String) (cp : Option Bool) : ReqConfig :=
  { method := method, url := url, params := [], headers := [],
    cancelPrevious := cp, cancelToken := none, startTime := none }

/-- The shared body of `post`/`put`/`delete`: dispatch with the given verb
(no cache involvement), unwrap on success, classify on failure. -/
def sendVerb (cfg : Cfg) (tr : Transport) (st : RunState) (method url : String)
    (cp : Option Bool) : RunState × Except AErr RetVal :=
  match dispatch cfg tr st (verbReqConfig method url cp) with
  | (st1, .ok resp) => (st1, .ok (.payload resp.data))
  | (st1, .error e) => handleError cfg tr st1 e

/-- `post(url, data, config)` (the body does not influence any claim). -/
def postM (cfg : Cfg) (tr : Transport) (st : RunState) (url : String) (cp : Option Bool) :
    RunState × Except AErr RetVal :=
  sendVerb cfg tr st "post" url cp

/-- `put(url, data, config)`. -/
def putM (cfg : Cfg) (tr : Transport) (st : RunState) (url : String) (cp : Option Bool) :
    RunState × Except AErr RetVal :=
  sendVerb cfg tr st "put" url cp

/-- `delete(url, config)`. -/
def deleteM (cfg : Cfg) (tr : Transport) (st : RunState) (url : String) (cp : Option Bool) :
    RunState × Except AErr RetVal :=
  sendVerb cfg tr st "delete" url cp

/-! ### Cooperative-concurrency model of `getToken`

`getToken` suspends only inside `refreshToken`, at the `await axios.post`
of the refresh exchange.  A task is therefore in one of three phases: it has
not run yet (`ready`), it has evaluated the token guard, issued its own
refresh exchange and is suspended awaiting the reply (`awaitingRefresh`,
remembering which exchange it issued), or it has settled (`finished`).  The
synchronous section of each phase is atomic; a schedule lists which task's
next section runs at each step. -/

/-- Phase of one task running `getToken`. -/
inductive TaskPhase where
  | ready
  | awaitingRefresh (idx : Nat)
  | finished (r : Except AErr (Option String))
deriving Repr

/-- Shared token-manager state plus the per-task phases. -/
structure TokState where
  token : Option String
  tokenExpiration : Option Nat
  now : Nat
  refreshExchanges : Nat
  tasks : List TaskPhase
deriving Repr

/-- `isTokenExpired()` over the shared token state. -/
def tokExpired (s : TokState) : Bool :=
  match s.tokenExpiration with
  | none => true
  | some e => e ≤ s.now

/-- Run the next synchronous section of task `i`: from `ready`, evaluate
`!this.token || this.isTokenExpired()` and either settle immediately or
issue a refresh exchange and suspend; from `awaitingRefresh`, consume the
reply of the exchange this task issued (on success `refreshToken` writes
`this.token`/`this.tokenExpiration`, then `getToken` returns `this.token`). -/
def stepTask (rt : Nat → RefreshReply) (s : TokState) (i : Nat) : TokState :=
  match s.tasks.get? i with
  | some .ready =>
    if !strTruthy s.token || tokExpired s then
      { s with refreshExchanges := s.refreshExchanges + 1,
               tasks := s.tasks.set i (.awaitingRefresh s.refreshExchanges) }
    else
      { s with tasks := s.tasks.set i (.finished (.ok s.token)) }
  | some (.awaitingRefresh idx) =>
    match rt idx with
    | .ok t expiresIn =>
      let s1 := { s with token := some t, tokenExpiration := some (s.now + expiresIn * 1000) }
      { s1 with tasks := s1.tasks.set i (.finished (.ok s1.token)) }
    | .err e => { s with tasks := s.tasks.set i (.finished (.error e)) }
  | some (.finished _) => s
  | none => s

/-- Run a whole interleaving schedule. -/
def runSchedule (rt : Nat → RefreshReply) (s : TokState) : List Nat → TokState
  | [] => s
  | i :: rest => runSchedule rt (stepTask rt s i) rest

/-! ### Concrete fixtures used by counterexamples and witnesses -/

/-- All features enabled, with the default `cacheTTL` of 100 seconds. -/
def cfgAll : Cfg :=
  { cacheEnabled := true, cacheTTL := 100, tokenRefreshEnabled := true,
    requestCancellation := true, performanceMonitoring := true }

/-- A fresh service instance at clock 0. -/
def initState : RunState :=
  { cache := [], pending := [], token := none, tokenExpiration := none,
    now := 0, transportCalls := 0, refreshCalls := 0, nextCancelId := 0, events := [] }

/-- Transport that always replies 200 with the string payload `"v"`. -/
def trOk : Transport :=
  { http := fun _ => .reply 200 (.str "v"), refresh := fun _ => .ok "T" 3600 }

/-- Transport that always replies 200 with the falsy payload `0`. -/
def trZero : Transport :=
  { http := fun _ => .reply 200 (.num 0), refresh := fun _ => .ok "T" 3600 }

/-- Transport replying 401 first, then 200 `"retried"`; refresh succeeds
with `{token: "T2", expiresIn: 3600}`. -/
def trAuth : Transport :=
  { http := fun n => if n = 0 then .reply 401 (.str "unauthorized")
                     else .reply 200 (.str "retried"),
    refresh := fun _ => .ok "T2" 3600 }

/-- Refresh oracle that always succeeds. -/
def refreshOkOracle : Nat → RefreshReply := fun _ => .ok "T" 3600

/-- A state owning a valid token, used to show the pre-send stage still
attaches no authorization header even when one is available. -/
def stWithToken : RunState :=
  { initState with token := some "T1", tokenExpiration := some 999999999 }

/-- A concrete request entering the interceptor pipeline. -/
def reqSecure : ReqConfig :=
  { method := "get", url := "/secure", params := [], headers := [("X-Custom-Header", "foobar")],
    cancelPrevious := none, cancelToken := none, startTime := none }

/-- A state holding a cached falsy `0` for `/data` with no params. -/
def stZeroCached : RunState :=
  { initState with cache := [("/data_\x7b\x7d", JVal.num 0, 0)] }

/-- A transport whose refresh endpoint always fails. -/
def trRefreshFail : Transport :=
  { http := fun _ => .reply 401 (.str "unauthorized"),
    refresh := fun _ => .err (.netRequest "https://api.example.com/refresh-token") }

/-- Transport that always replies 404. -/
def trMissing : Transport :=
  { http := fun _ => .reply 404 (.str "not found"), refresh := fun _ => .ok "T" 3600 }

/-- Two tasks about to call `getToken` while no token exists. -/
def twoTasksNoToken : TokState :=
  { token := none, tokenExpiration := none, now := 0, refreshExchanges := 0,
    tasks := [.ready, .ready] }

/-! ### Result-shape helpers -/

/-- The settled outcome is a success carrying the raw response envelope. -/
def isEnvelopeSuccess : Except AErr RetVal → Bool
  | .ok (.envelope _) => true
  | _ => false

/-- The settled outcome is a success carrying an unwrapped payload. -/
def isPayloadSuccess : Except AErr RetVal → Bool
  | .ok (.payload _) => true
  | _ => false

/-- The data carried by an envelope success, if the outcome is one. -/
def envelopeData : Except AErr RetVal → Option JVal
  | .ok (.envelope r) => some r.data
  | _ => none

/-- The status of the propagated `error.response`, if the outcome is a
rejection with a response. -/
def errStatus : Except AErr RetVal → Option Nat
  | .error (.httpResponse s _ _) => some s
  | _ => none

/-- The body of the propagated `error.response`, if any. -/
def errData : Except AErr RetVal → Option JVal
  | .error (.httpResponse _ d _) => some d
  | _ => none

/-! ### Event-order helpers -/

/-- Recognize a transport-dispatch event. -/
def isDispatchEvent : Event → Bool
  | .dispatchReq _ _ => true
  | _ => false

/-- Recognize a duplicate-cancellation event. -/
def isCancelEvent : Event → Bool
  | .cancelPrev _ => true
  | _ => false

/-- Recognize a registry-registration event. -/
def isTrackEvent : Event → Bool
  | .track _ => true
  | _ => false

/-- Recognize a cache-lookup event. -/
def isCacheLookupEvent : Event → Bool
  | .cacheLookup _ => true
  | _ => false

/-- Every duplicate-cancellation event is followed, strictly later in the
trace, by some transport dispatch (the superseding request's). -/
def cancelsBeforeDispatch : List Event → Bool
  | [] => true
  | e :: rest =>
    (if isCancelEvent e then rest.any isDispatchEvent else true) && cancelsBeforeDispatch rest

/-- The claim-side reading of "the registry step happens before the cache is
consulted": the first registration event precedes the first cache lookup. -/
def registryStepBeforeCacheConsult (evs : List Event) : Bool :=
  match evs.findIdx? isTrackEvent, evs.findIdx? isCacheLookupEvent with
  | some i, some j => i < j
  | _, _ => false

/-! ### State-plumbing lemmas -/

@[simp] theorem pushEvent_cache (st : RunState) (e : Event) :
    (pushEvent st e).cache = st.cache := rfl

@[simp] theorem pushEvent_pending (st : RunState) (e : Event) :
    (pushEvent st e).pending = st.pending := rfl

@[simp] theorem pushEvent_token (st : RunState) (e : Event) :
    (pushEvent st e).token = st.token := rfl

@[simp] theorem pushEvent_tokenExpiration (st : RunState) (e : Event) :
    (pushEvent st e).tokenExpiration = st.tokenExpiration := rfl

@[simp] theorem pushEvent_now (st : RunState) (e : Event) :
    (pushEvent st e).now = st.now := rfl

@[simp] theorem pushEvent_transportCalls (st : RunState) (e : Event) :
    (pushEvent st e).transportCalls = st.transportCalls := rfl

@[simp] theorem pushEvent_refreshCalls (st : RunState) (e : Event) :
    (pushEvent st e).refreshCalls = st.refreshCalls := rfl

@[simp] theorem pushEvent_nextCancelId (st : RunState) (e : Event) :
    (pushEvent st e).nextCancelId = st.nextCancelId := rfl

@[simp] theorem pushEvent_events (st : RunState) (e : Event) :
    (pushEvent st e).events = st.events ++ [e] := rfl

@[simp] theorem cancelPendingRequests_cache (st : RunState) (c : ReqConfig) :
    (cancelPendingRequests st c).cache = st.cache := by
  simp only [cancelPendingRequests]; split <;> simp

@[simp] theorem cancelPendingRequests_token (st : RunState) (c : ReqConfig) :
    (cancelPendingRequests st c).token = st.token := by
  simp only [cancelPendingRequests]; split <;> simp

@[simp] theorem cancelPendingRequests_tokenExpiration (st : RunState) (c : ReqConfig) :
    (cancelPendingRequests st c).tokenExpiration = st.tokenExpiration := by
  simp only [cancelPendingRequests]; split <;> simp

@[simp] theorem cancelPendingRequests_now (st : RunState) (c : ReqConfig) :
    (cancelPendingRequests st c).now = st.now := by
  simp only [cancelPendingRequests]; split <;> simp

@[simp] theorem cancelPendingRequests_transportCalls (st : RunState) (c : ReqConfig) :
    (cancelPendingRequests st c).transportCalls = st.transportCalls := by
  simp only [cancelPendingRequests]; split <;> simp

@[simp] theorem cancelPendingRequests_refreshCalls (st : RunState) (c : ReqConfig) :
    (cancelPendingRequests st c).refreshCalls = st.refreshCalls := by
  simp only [cancelPendingRequests]; split <;> simp

@[simp] theorem cancelPendingRequests_nextCancelId (st : RunState) (c : ReqConfig) :
    (cancelPendingRequests st c).nextCancelId = st.nextCancelId := by
  simp only [cancelPendingRequests]; split <;> simp

@[simp] theorem trackRequest_cache (st : RunState) (c : ReqConfig) (srcId : Nat) :
    (trackRequest st c srcId).cache = st.cache := rfl

@[simp] theorem trackRequest_token (st : RunState) (c : ReqConfig) (srcId : Nat) :
    (trackRequest st c srcId).token = st.token := rfl

@[simp] theorem trackRequest_tokenExpiration (st : RunState) (c : ReqConfig) (srcId : Nat) :
    (trackRequest st c srcId).tokenExpiration = st.tokenExpiration := rfl

@[simp] theorem trackRequest_now (st : RunState) (c : ReqConfig) (srcId : Nat) :
    (trackRequest st c srcId).now = st.now := rfl

@[simp] theorem trackRequest_transportCalls (st : RunState) (c : ReqConfig) (srcId : Nat) :
    (trackRequest st c srcId).transportCalls = st.transportCalls := rfl

@[simp] theorem trackRequest_refreshCalls (st : RunState) (c : ReqConfig) (srcId : Nat) :
    (trackRequest st c srcId).refreshCalls = st.refreshCalls := rfl

@[simp] theorem trackRequest_nextCancelId (st : RunState) (c : ReqConfig) (srcId : Nat) :
    (trackRequest st c srcId).nextCancelId = st.nextCancelId := rfl

/-- The state side of `presend` preserves everything a later stage reads
except the registry, the event trace and the cancel-id counter. -/
theorem presend_core (cfg : Cfg) (st : RunState) (c : ReqConfig) :
    (presend cfg st c).1.cache = st.cache ∧
    (presend cfg st c).1.token = st.token ∧
    (presend cfg st c).1.tokenExpiration = st.tokenExpiration ∧
    (presend cfg st c).1.now = st.now ∧
    (presend cfg st c).1.transportCalls = st.transportCalls ∧
    (presend cfg st c).1.refreshCalls = st.refreshCalls := by
  unfold presend cancelInterceptor perfInterceptor
  cases hc : cfg.requestCancellation <;> cases hp : cfg.performanceMonitoring <;>
    simp [apply_ite RunState.cache, apply_ite RunState.token,
      apply_ite RunState.tokenExpiration, apply_ite RunState.now,
      apply_ite RunState.transportCalls, apply_ite RunState.refreshCalls]

/-- The config side of `presend`: only `cancelToken` and `startTime` are
written; the request identity and headers are untouched. -/
theorem presend_config (cfg : Cfg) (st : RunState) (c : ReqConfig) :
    (presend cfg st c).2.method = c.method ∧
    (presend cfg st c).2.url = c.url ∧
    (presend cfg st c).2.params = c.params ∧
    (presend cfg st c).2.headers = c.headers ∧
    (presend cfg st c).2.cancelPrevious = c.cancelPrevious ∧
    (presend cfg st c).2.cancelToken =
      (if cfg.requestCancellation then some st.nextCancelId else c.cancelToken) ∧
    (presend cfg st c).2.startTime =
      (if cfg.performanceMonitoring then some st.now else c.startTime) := by
  unfold presend cancelInterceptor perfInterceptor
  cases hc : cfg.requestCancellation <;> cases hp : cfg.performanceMonitoring <;>
    simp [apply_ite RunState.now]

/-- Request ids ignore the fields `presend` writes. -/
theorem getRequestId_presend (cfg : Cfg) (st : RunState) (c : ReqConfig) :
    getRequestId (presend cfg st c).2 = getRequestId c := by
  unfold getRequestId
  rw [(presend_config cfg st c).1, (presend_config cfg st c).2.1,
    (presend_config cfg st c).2.2.1]

/-- The state `dispatch` returns, in closed form: whatever the reply was,
the state is the post-interceptor state with the call counted and the
dispatch event appended. -/
theorem dispatch_fst (cfg : Cfg) (tr : Transport) (st : RunState) (c : ReqConfig) :
    (dispatch cfg tr st c).1 =
      pushEvent { (presend cfg st c).1 with
          transportCalls := (presend cfg st c).1.transportCalls + 1 }
        (.dispatchReq (presend cfg st c).2.method (presend cfg st c).2.url) := by
  unfold dispatch
  cases htr : tr.http ((presend cfg st c).1.transportCalls) <;>
    simp [htr] <;> (try split) <;> rfl

/-- The outcome `dispatch` returns, in closed form, as a function of the
transport reply at the current call index. -/
theorem dispatch_snd (cfg : Cfg) (tr : Transport) (st : RunState) (c : ReqConfig) :
    (dispatch cfg tr st c).2 =
      (match tr.http st.transportCalls with
       | .reply s d =>
         if 200 ≤ s ∧ s < 300 then
           .ok { status := s, data := d, config := (presend cfg st c).2 }
         else
           .error (.httpResponse s d (presend cfg st c).2)
       | .netErr => .error (.netRequest (presend cfg st c).2.url)) := by
  rw [← (presend_core cfg st c).2.2.2.2.1]
  unfold dispatch
  cases htr : tr.http ((presend cfg st c).1.transportCalls) <;> simp [htr] <;>
    split <;> rfl

@[simp] theorem dispatch_cache (cfg : Cfg) (tr : Transport) (st : RunState) (c : ReqConfig) :
    (dispatch cfg tr st c).1.cache = st.cache := by
  rw [dispatch_fst]; simp [(presend_core cfg st c).1]

@[simp] theorem dispatch_token (cfg : Cfg) (tr : Transport) (st : RunState) (c : ReqConfig) :
    (dispatch cfg tr st c).1.token = st.token := by
  rw [dispatch_fst]; simp [(presend_core cfg st c).2.1]

@[simp] theorem dispatch_tokenExpiration (cfg : Cfg) (tr : Transport) (st : RunState)
    (c : ReqConfig) :
    (dispatch cfg tr st c).1.tokenExpiration = st.tokenExpiration := by
  rw [dispatch_fst]; simp [(presend_core cfg st c).2.2.1]

@[simp] theorem dispatch_now (cfg : Cfg) (tr : Transport) (st : RunState) (c : ReqConfig) :
    (dispatch cfg tr st c).1.now = st.now := by
  rw [dispatch_fst]; simp [(presend_core cfg st c).2.2.2.1]

@[simp] theorem dispatch_transportCalls (cfg : Cfg) (tr : Transport) (st : RunState)
    (c : ReqConfig) :
    (dispatch cfg tr st c).1.transportCalls = st.transportCalls + 1 := by
  rw [dispatch_fst]; simp [(presend_core cfg st c).2.2.2.2.1]

@[simp] theorem dispatch_refreshCalls (cfg : Cfg) (tr : Transport) (st : RunState)
    (c : ReqConfig) :
    (dispatch cfg tr st c).1.refreshCalls = st.refreshCalls := by
  rw [dispatch_fst]; simp [(presend_core cfg st c).2.2.2.2.2]

/-- `dispatch` leaves the registry exactly as the interceptors left it. -/
theorem dispatch_pending (cfg : Cfg) (tr : Transport) (st : RunState) (c : ReqConfig) :
    (dispatch cfg tr st c).1.pending = (presend cfg st c).1.pending := by
  rw [dispatch_fst]; simp

/-- The events of a `dispatch`: the interceptors' events then the dispatch
event itself. -/
theorem dispatch_events (cfg : Cfg) (tr : Transport) (st : RunState) (c : ReqConfig) :
    (dispatch cfg tr st c).1.events =
      (presend cfg st c).1.events ++
        [Event.dispatchReq (presend cfg st c).2.method (presend cfg st c).2.url] := by
  rw [dispatch_fst]; simp

/-- `refreshToken` on a successful exchange, in closed form. -/
theorem refreshToken_eq_ok (tr : Transport) (st : RunState) (t : String) (exp : Nat)
    (h : tr.refresh st.refreshCalls = .ok t exp) :
    refreshToken tr st =
      ({ pushEvent { st with refreshCalls := st.refreshCalls + 1 } .refreshCall with
          token := some t, tokenExpiration := some (st.now + exp * 1000) }, .ok ()) := by
  simp only [refreshToken, h]
  rfl

/-- `refreshToken` on a failed exchange, in closed form: the error is
rejected as-is and `token`/`tokenExpiration` keep their values. -/
theorem refreshToken_eq_err (tr : Transport) (st : RunState) (e : AErr)
    (h : tr.refresh st.refreshCalls = .err e) :
    refreshToken tr st =
      (pushEvent { st with refreshCalls := st.refreshCalls + 1 } .refreshCall, .error e) := by
  simp only [refreshToken, h]

/-- `handleError` on an error with no `error.response`: rejected unchanged. -/
theorem handleError_netRequest (cfg : Cfg) (tr : Transport) (st : RunState) (u : String) :
    handleError cfg tr st (.netRequest u) = (st, .error (.netRequest u)) := rfl

/-- `handleError` on a bare error: rejected unchanged. -/
theorem handleError_other (cfg : Cfg) (tr : Transport) (st : RunState) (m : String) :
    handleError cfg tr st (.other m) = (st, .error (.other m)) := rfl

/-- `handleError` on a response error that is not a refreshable 401:
logged and rejected unchanged. -/
theorem handleError_not401 (cfg : Cfg) (tr : Transport) (st : RunState) (s : Nat) (d : JVal)
    (c : ReqConfig) (h : ¬(s = 401 ∧ cfg.tokenRefreshEnabled = true)) :
    handleError cfg tr st (.httpResponse s d c) = (st, .error (.httpResponse s d c)) := by
  simp only [handleError]
  rw [if_neg h]

/-- `handleError` on a 401 whose refresh fails: the refresh error is
rejected, and the original request is not re-issued. -/
theorem handleError_401_refresh_err (cfg : Cfg) (tr : Transport) (st : RunState) (d : JVal)
    (c : ReqConfig) (e : AErr) (hEn : cfg.tokenRefreshEnabled = true)
    (h : tr.refresh st.refreshCalls = .err e) :
    handleError cfg tr st (.httpResponse 401 d c) =
      (pushEvent { st with refreshCalls := st.refreshCalls + 1 } .refreshCall, .error e) := by
  simp only [handleError]
  rw [if_pos ⟨trivial, hEn⟩, refreshToken_eq_err tr st e h]

/-- `handleError` on a 401 whose refresh succeeds: the original request is
re-issued once from the refreshed state, and its raw outcome is returned
(the envelope on success, the rejection otherwise). -/
theorem handleError_401_refresh_ok (cfg : Cfg) (tr : Transport) (st : RunState) (d : JVal)
    (c : ReqConfig) (t : String) (exp : Nat) (hEn : cfg.tokenRefreshEnabled = true)
    (h : tr.refresh st.refreshCalls = .ok t exp) :
    handleError cfg tr st (.httpResponse 401 d c) =
      (match dispatch cfg tr (refreshToken tr st).1 c with
       | (st2, .ok resp) => (st2, Except.ok (RetVal.envelope resp))
       | (st2, .error retryErr) => (st2, Except.error retryErr)) := by
  simp only [handleError]
  rw [if_pos ⟨trivial, hEn⟩, refreshToken_eq_ok tr st t exp h]

/-- Looking up the key just registered finds it. -/
theorem lookupPending_set (p : List (String × Nat)) (k : String) (v : Nat) :
    lookupPending (setPending p k v) k = some v := by
  unfold lookupPending setPending
  simp [List.find?]

/-- After the interceptor chain ran with cancellation enabled, the registry
holds a record for the request's identity (the fresh cancel-token source). -/
theorem presend_pending_tracks (cfg : Cfg) (st : RunState) (c : ReqConfig)
    (hc : cfg.requestCancellation = true) :
    lookupPending (presend cfg st c).1.pending (getRequestId c) = some st.nextCancelId := by
  unfold presend cancelInterceptor perfInterceptor trackRequest
  rw [hc]
  cases hp : cfg.performanceMonitoring <;>
    simp [getRequestId, lookupPending_set, apply_ite RunState.pending]

/-- `getM` when the cache guard does not fire (no entry, or a falsy value):
the call proceeds exactly as a cache miss. -/
theorem getM_eq_miss (cfg : Cfg) (tr : Transport) (st : RunState) (url : String)
    (params : List (String × JVal)) (cp : Option Bool)
    (h : cacheTruthyHit cfg st (cacheKeyOf url params) = false) :
    getM cfg tr st url params cp =
      getMiss cfg tr
        (if cfg.cacheEnabled then pushEvent st (.cacheLookup (cacheKeyOf url params)) else st)
        url params cp (cacheKeyOf url params) := by
  unfold cacheTruthyHit at h
  cases hl : lookupCache cfg st (cacheKeyOf url params) with
  | none => simp [getM, hl]
  | some v =>
    rw [hl] at h
    simp at h
    simp [getM, hl, h]

/-- `getM` on a present truthy cached value: short-circuit with the cached
payload, touching nothing but the event trace. -/
theorem getM_eq_hit (cfg : Cfg) (tr : Transport) (st : RunState) (url : String)
    (params : List (String × JVal)) (cp : Option Bool) (v : JVal)
    (hl : lookupCache cfg st (cacheKeyOf url params) = some v) (hv : v.truthy = true) :
    getM cfg tr st url params cp =
      ((if cfg.cacheEnabled then pushEvent st (.cacheLookup (cacheKeyOf url params)) else st),
       .ok (.payload v)) := by
  simp [getM, hl, hv]

/-- `getMiss` when the transport replies 2xx: the cache is populated with
the unwrapped data (stamped at the current clock) and the unwrapped payload
is returned. -/
theorem getMiss_eq_ok (cfg : Cfg) (tr : Transport) (st : RunState) (url : String)
    (params : List (String × JVal)) (cp : Option Bool) (key : String) (s : Nat) (d : JVal)
    (h : tr.http st.transportCalls = .reply s d) (h1 : 200 ≤ s) (h2 : s < 300) :
    getMiss cfg tr st url params cp key =
      ((if cfg.cacheEnabled then
          { (dispatch cfg tr st (getReqConfig url params cp)).1 with
              cache := cacheSet st.cache key d st.now }
        else (dispatch cfg tr st (getReqConfig url params cp)).1),
       .ok (.payload d)) := by
  rcases hd : dispatch cfg tr st (getReqConfig url params cp) with ⟨st1, r⟩
  have hr := dispatch_snd cfg tr st (getReqConfig url params cp)
  rw [hd] at hr
  simp only [h] at hr
  rw [if_pos ⟨h1, h2⟩] at hr
  have hcache : st1.cache = st.cache := by
    rw [← dispatch_cache cfg tr st (getReqConfig url params cp), hd]
  have hnow : st1.now = st.now := by
    rw [← dispatch_now cfg tr st (getReqConfig url params cp), hd]
  unfold getMiss
  rw [hd, hr]
  simp [hcache, hnow]

/-- `getMiss` when the transport replies with a non-2xx status: the failure
is routed through `handleError` from the post-dispatch state. -/
theorem getMiss_eq_reply_err (cfg : Cfg) (tr : Transport) (st : RunState) (url : String)
    (params : List (String × JVal)) (cp : Option Bool) (key : String) (s : Nat) (d : JVal)
    (h : tr.http st.transportCalls = .reply s d) (hn : ¬(200 ≤ s ∧ s < 300)) :
    getMiss cfg tr st url params cp key =
      handleError cfg tr (dispatch cfg tr st (getReqConfig url params cp)).1
        (.httpResponse s d (presend cfg st (getReqConfig url params cp)).2) := by
  rcases hd : dispatch cfg tr st (getReqConfig url params cp) with ⟨st1, r⟩
  have hr := dispatch_snd cfg tr st (getReqConfig url params cp)
  rw [hd] at hr
  simp only [h] at hr
  rw [if_neg hn] at hr
  unfold getMiss
  rw [hd, hr]

/-- `getMiss` when no response is received: the transport failure is routed
through `handleError` (and rejected unchanged there). -/
theorem getMiss_eq_netErr (cfg : Cfg) (tr : Transport) (st : RunState) (url : String)
    (params : List (String × JVal)) (cp : Option Bool) (key : String)
    (h : tr.http st.transportCalls = .netErr) :
    getMiss cfg tr st url params cp key =
      handleError cfg tr (dispatch cfg tr st (getReqConfig url params cp)).1
        (.netRequest (presend cfg st (getReqConfig url params cp)).2.url) := by
  rcases hd : dispatch cfg tr st (getReqConfig url params cp) with ⟨st1, r⟩
  have hr := dispatch_snd cfg tr st (getReqConfig url params cp)
  rw [hd] at hr
  simp only [h] at hr
  unfold getMiss
  rw [hd, hr]

/-- `cancelPendingRequests` only appends events. -/
theorem cancelPendingRequests_extend (st : RunState) (c : ReqConfig) :
    ∃ m, (cancelPendingRequests st c).events = st.events ++ m := by
  simp only [cancelPendingRequests]
  split
  · exact ⟨_, rfl⟩
  · exact ⟨[], by simp⟩

/-- `cancelInterceptor` only appends events. -/
theorem cancelInterceptor_extend (st : RunState) (c : ReqConfig) :
    ∃ m, (cancelInterceptor st c).1.events = st.events ++ m := by
  simp only [cancelInterceptor, trackRequest]
  split
  · obtain ⟨m, hm⟩ := cancelPendingRequests_extend
      { st with nextCancelId := st.nextCancelId + 1 }
      { c with cancelToken := some st.nextCancelId }
    exact ⟨m ++ [Event.track (getRequestId { c with cancelToken := some st.nextCancelId })],
      by simp [hm]⟩
  · exact ⟨_, rfl⟩

/-- `presend` only appends events. -/
theorem presend_extend (cfg : Cfg) (st : RunState) (c : ReqConfig) :
    ∃ m, (presend cfg st c).1.events = st.events ++ m := by
  unfold presend perfInterceptor
  cases hc : cfg.requestCancellation <;> cases hp : cfg.performanceMonitoring
  · exact ⟨[], by simp⟩
  · exact ⟨[Event.stampStart], by simp⟩
  · exact cancelInterceptor_extend st c
  · obtain ⟨m, hm⟩ := cancelInterceptor_extend st c
    exact ⟨m ++ [Event.stampStart], by simp [hm]⟩

/-- The events of `refreshToken`: exactly one refresh-exchange event. -/
theorem refreshToken_events (tr : Transport) (st : RunState) :
    (refreshToken tr st).1.events = st.events ++ [Event.refreshCall] := by
  unfold refreshToken
  cases h : tr.refresh st.refreshCalls <;> simp [h]

/-- A list ending in a dispatch event satisfies the cancel-before-dispatch
discipline outright: the final dispatch follows every cancellation. -/
theorem cancelsBeforeDispatch_snoc_dispatch (ys : List Event) (m u : String) :
    cancelsBeforeDispatch (ys ++ [Event.dispatchReq m u]) = true := by
  induction ys with
  | nil => rfl
  | cons e rest ih =>
    simp only [List.cons_append, cancelsBeforeDispatch, Bool.and_eq_true]
    refine ⟨?_, ih⟩
    split
    · simp [List.any_append, isDispatchEvent]
    · rfl

/-- The cancel-before-dispatch discipline is closed under concatenation. -/
theorem cancelsBeforeDispatch_append (xs ys : List Event)
    (hx : cancelsBeforeDispatch xs = true) (hy : cancelsBeforeDispatch ys = true) :
    cancelsBeforeDispatch (xs ++ ys) = true := by
  induction xs with
  | nil => simpa using hy
  | cons e rest ih =>
    simp only [cancelsBeforeDispatch, Bool.and_eq_true] at hx
    simp only [List.cons_append, cancelsBeforeDispatch, Bool.and_eq_true]
    refine ⟨?_, ih hx.2⟩
    have h1 := hx.1
    split
    · rename_i hcan
      rw [if_pos hcan] at h1
      simp [List.any_append, h1]
    · rfl

/-- Lists without cancel events trivially satisfy the discipline. -/
theorem cancelsBeforeDispatch_of_no_cancel (ys : List Event)
    (h : ys.all (fun e => !(isCancelEvent e)) = true) :
    cancelsBeforeDispatch ys = true := by
  induction ys with
  | nil => rfl
  | cons e rest ih =>
    simp only [List.all_cons, Bool.and_eq_true, Bool.not_eq_true'] at h
    simp only [cancelsBeforeDispatch, Bool.and_eq_true]
    exact ⟨by simp [h.1], ih h.2⟩

@[simp] theorem refreshToken_cache (tr : Transport) (st : RunState) :
    (refreshToken tr st).1.cache = st.cache := by
  unfold refreshToken
  cases h : tr.refresh st.refreshCalls <;> simp [h]

@[simp] theorem refreshToken_now (tr : Transport) (st : RunState) :
    (refreshToken tr st).1.now = st.now := by
  unfold refreshToken
  cases h : tr.refresh st.refreshCalls <;> simp [h]

@[simp] theorem refreshToken_pending (tr : Transport) (st : RunState) :
    (refreshToken tr st).1.pending = st.pending := by
  unfold refreshToken
  cases h : tr.refresh st.refreshCalls <;> simp [h]

@[simp] theorem refreshToken_transportCalls (tr : Transport) (st : RunState) :
    (refreshToken tr st).1.transportCalls = st.transportCalls := by
  unfold refreshToken
  cases h : tr.refresh st.refreshCalls <;> simp [h]

@[simp] theorem refreshToken_refreshCalls (tr : Transport) (st : RunState) :
    (refreshToken tr st).1.refreshCalls = st.refreshCalls + 1 := by
  unfold refreshToken
  cases h : tr.refresh st.refreshCalls <;> simp [h]

/-- The state `getM` hands to the miss path: only the event trace differs
from the caller state.  These four lemmas transfer the relevant fields. -/
theorem cacheLookupState_transportCalls (cfg : Cfg) (st : RunState) (k : String) :
    (if cfg.cacheEnabled then pushEvent st (Event.cacheLookup k) else st).transportCalls =
      st.transportCalls := by
  split <;> rfl

theorem cacheLookupState_refreshCalls (cfg : Cfg) (st : RunState) (k : String) :
    (if cfg.cacheEnabled then pushEvent st (Event.cacheLookup k) else st).refreshCalls =
      st.refreshCalls := by
  split <;> rfl

theorem cacheLookupState_now (cfg : Cfg) (st : RunState) (k : String) :
    (if cfg.cacheEnabled then pushEvent st (Event.cacheLookup k) else st).now = st.now := by
  split <;> rfl

theorem cacheLookupState_cache (cfg : Cfg) (st : RunState) (k : String) :
    (if cfg.cacheEnabled then pushEvent st (Event.cacheLookup k) else st).cache = st.cache := by
  split <;> rfl

theorem cacheLookupState_nextCancelId (cfg : Cfg) (st : RunState) (k : String) :
    (if cfg.cacheEnabled then pushEvent st (Event.cacheLookup k) else st).nextCancelId =
      st.nextCancelId := by
  split <;> rfl

/-- Any verb call whose dispatch gets a 2xx reply resolves with the
unwrapped `response.data` (via `handleSuccess`). -/
theorem sendVerb_snd_ok (cfg : Cfg) (tr : Transport) (st : RunState) (method url : String)
    (cp : Option Bool) (s : Nat) (d : JVal)
    (h : tr.http st.transportCalls = .reply s d) (h1 : 200 ≤ s) (h2 : s < 300) :
    (sendVerb cfg tr st method url cp).2 = .ok (.payload d) := by
  rcases hd : dispatch cfg tr st (verbReqConfig method url cp) with ⟨st1, r⟩
  have hr := dispatch_snd cfg tr st (verbReqConfig method url cp)
  rw [hd] at hr
  simp only [h] at hr
  rw [if_pos ⟨h1, h2⟩] at hr
  unfold sendVerb
  rw [hd, hr]

/-- `getM` on a cache miss whose dispatch gets a 2xx reply resolves with the
unwrapped `response.data`. -/
theorem getM_snd_ok (cfg : Cfg) (tr : Transport) (st : RunState) (url : String)
    (params : List (String × JVal)) (cp : Option Bool) (s : Nat) (d : JVal)
    (hmiss : cacheTruthyHit cfg st (cacheKeyOf url params) = false)
    (h : tr.http st.transportCalls = .reply s d) (h1 : 200 ≤ s) (h2 : s < 300) :
    (getM cfg tr st url params cp).2 = .ok (.payload d) := by
  rw [getM_eq_miss cfg tr st url params cp hmiss]
  rw [getMiss_eq_ok cfg tr _ url params cp (cacheKeyOf url params) s d
    (by rw [cacheLookupState_transportCalls]; exact h) h1 h2]

/-- The 401-refresh-retry path of `getMiss`, when the retry gets a 2xx
reply: the call resolves with the RAW response envelope of the retried
request (`this.customAxios.request(originalRequest)` is returned without
`handleSuccess`), carrying the retried data. -/
theorem getMiss_snd_401_envelope (cfg : Cfg) (tr : Transport) (st : RunState) (url : String)
    (params : List (String × JVal)) (cp : Option Bool) (key : String) (d0 : JVal)
    (t : String) (exp : Nat) (s2 : Nat) (d2 : JVal)
    (hEn : cfg.tokenRefreshEnabled = true)
    (h0 : tr.http st.transportCalls = .reply 401 d0)
    (hre : tr.refresh st.refreshCalls = .ok t exp)
    (h3 : tr.http (st.transportCalls + 1) = .reply s2 d2)
    (h4 : 200 ≤ s2) (h5 : s2 < 300) :
    envelopeData (getMiss cfg tr st url params cp key).2 = some d2 ∧
    isEnvelopeSuccess (getMiss cfg tr st url params cp key).2 = true ∧
    isPayloadSuccess (getMiss cfg tr st url params cp key).2 = false := by
  rw [getMiss_eq_reply_err cfg tr st url params cp key 401 d0 h0 (by decide)]
  rw [handleError_401_refresh_ok cfg tr _ d0 _ t exp hEn
    (by rw [dispatch_refreshCalls]; exact hre)]
  rcases hd2 : dispatch cfg tr
      (refreshToken tr (dispatch cfg tr st (getReqConfig url params cp)).1).1
      (presend cfg st (getReqConfig url params cp)).2 with ⟨st2, r2⟩
  have hr2 := dispatch_snd cfg tr
    (refreshToken tr (dispatch cfg tr st (getReqConfig url params cp)).1).1
    (presend cfg st (getReqConfig url params cp)).2
  rw [hd2] at hr2
  rw [refreshToken_transportCalls, dispatch_transportCalls] at hr2
  simp only [h3] at hr2
  rw [if_pos ⟨h4, h5⟩] at hr2
  rw [hr2]
  exact ⟨rfl, rfl, rfl⟩

/-- `handleError` re-issues at most one request and at most one refresh. -/
theorem handleError_le (cfg : Cfg) (tr : Transport) (st : RunState) (e : AErr) :
    (handleError cfg tr st e).1.transportCalls ≤ st.transportCalls + 1 ∧
    (handleError cfg tr st e).1.refreshCalls ≤ st.refreshCalls + 1 := by
  cases e with
  | httpResponse s d c =>
    by_cases h : s = 401 ∧ cfg.tokenRefreshEnabled = true
    · obtain ⟨hs, hEn⟩ := h
      subst hs
      cases hre : tr.refresh st.refreshCalls with
      | ok t exp =>
        rw [handleError_401_refresh_ok cfg tr st d c t exp hEn hre]
        rcases hd2 : dispatch cfg tr (refreshToken tr st).1 c with ⟨st2, r2⟩
        have h1 := dispatch_transportCalls cfg tr (refreshToken tr st).1 c
        have h2 := dispatch_refreshCalls cfg tr (refreshToken tr st).1 c
        rw [hd2] at h1 h2
        simp at h1 h2
        cases r2 <;> simp [h1, h2]
      | err e2 =>
        rw [handleError_401_refresh_err cfg tr st d c e2 hEn hre]
        simp
    · rw [handleError_not401 cfg tr st s d c h]
      exact ⟨Nat.le_succ _, Nat.le_succ _⟩
  | netRequest u =>
    rw [handleError_netRequest]
    exact ⟨Nat.le_succ _, Nat.le_succ _⟩
  | other m =>
    rw [handleError_other]
    exact ⟨Nat.le_succ _, Nat.le_succ _⟩

/-- `getMiss` issues at most two transport exchanges (original plus at most
one retry) and at most one refresh exchange. -/
theorem getMiss_le (cfg : Cfg) (tr : Transport) (st : RunState) (url : String)
    (params : List (String × JVal)) (cp : Option Bool) (key : String) :
    (getMiss cfg tr st url params cp key).1.transportCalls ≤ st.transportCalls + 2 ∧
    (getMiss cfg tr st url params cp key).1.refreshCalls ≤ st.refreshCalls + 1 := by
  unfold getMiss
  rcases hd : dispatch cfg tr st (getReqConfig url params cp) with ⟨st1, r⟩
  have ht := dispatch_transportCalls cfg tr st (getReqConfig url params cp)
  have hrc := dispatch_refreshCalls cfg tr st (getReqConfig url params cp)
  rw [hd] at ht hrc
  simp at ht hrc
  cases r with
  | ok resp =>
    refine ⟨?_, ?_⟩ <;>
      simp [apply_ite RunState.transportCalls, apply_ite RunState.refreshCalls, ht, hrc] <;>
      omega
  | error e =>
    have hb := handleError_le cfg tr st1 e
    exact ⟨le_trans hb.1 (by omega), le_trans hb.2 (by omega)⟩

/-- `sendVerb` issues at most two transport exchanges and at most one
refresh exchange. -/
theorem sendVerb_le (cfg : Cfg) (tr : Transport) (st : RunState) (method url : String)
    (cp : Option Bool) :
    (sendVerb cfg tr st method url cp).1.transportCalls ≤ st.transportCalls + 2 ∧
    (sendVerb cfg tr st method url cp).1.refreshCalls ≤ st.refreshCalls + 1 := by
  unfold sendVerb
  rcases hd : dispatch cfg tr st (verbReqConfig method url cp) with ⟨st1, r⟩
  have ht := dispatch_transportCalls cfg tr st (verbReqConfig method url cp)
  have hrc := dispatch_refreshCalls cfg tr st (verbReqConfig method url cp)
  rw [hd] at ht hrc
  simp at ht hrc
  cases r with
  | ok resp =>
    refine ⟨?_, ?_⟩ <;> simp [ht, hrc] <;> omega
  | error e =>
    have hb := handleError_le cfg tr st1 e
    exact ⟨le_trans hb.1 (by omega), le_trans hb.2 (by omega)⟩

/-- `getM` issues at most two transport exchanges and at most one refresh
exchange per call. -/
theorem getM_le (cfg : Cfg) (tr : Transport) (st : RunState) (url : String)
    (params : List (String × JVal)) (cp : Option Bool) :
    (getM cfg tr st url params cp).1.transportCalls ≤ st.transportCalls + 2 ∧
    (getM cfg tr st url params cp).1.refreshCalls ≤ st.refreshCalls + 1 := by
  by_cases hmiss : cacheTruthyHit cfg st (cacheKeyOf url params) = false
  · rw [getM_eq_miss cfg tr st url params cp hmiss]
    have hb := getMiss_le cfg tr
      (if cfg.cacheEnabled then pushEvent st (Event.cacheLookup (cacheKeyOf url params)) else st)
      url params cp (cacheKeyOf url params)
    rw [cacheLookupState_transportCalls, cacheLookupState_refreshCalls] at hb
    exact hb
  · unfold cacheTruthyHit at hmiss
    rcases hl : lookupCache cfg st (cacheKeyOf url params) with _ | v
    · rw [hl] at hmiss; simp at hmiss
    · rw [hl] at hmiss
      simp at hmiss
      rw [getM_eq_hit cfg tr st url params cp v hl hmiss]
      refine ⟨?_, ?_⟩ <;>
        simp [cacheLookupState_transportCalls, cacheLookupState_refreshCalls] <;> omega

/-- `getM`-level form of the 401 retry outcome: on a cache miss whose
dispatch returns 401, with a successful refresh and a 2xx retry, the call
resolves with the raw envelope of the retried request. -/
theorem getM_snd_401_envelope (cfg : Cfg) (tr : Transport) (st : RunState) (url : String)
    (params : List (String × JVal)) (cp : Option Bool) (d0 : JVal) (t : String)
    (exp : Nat) (s2 : Nat) (d2 : JVal)
    (hmiss : cacheTruthyHit cfg st (cacheKeyOf url params) = false)
    (hEn : cfg.tokenRefreshEnabled = true)
    (h0 : tr.http st.transportCalls = .reply 401 d0)
    (hre : tr.refresh st.refreshCalls = .ok t exp)
    (h3 : tr.http (st.transportCalls + 1) = .reply s2 d2)
    (h4 : 200 ≤ s2) (h5 : s2 < 300) :
    envelopeData (getM cfg tr st url params cp).2 = some d2 ∧
    isEnvelopeSuccess (getM cfg tr st url params cp).2 = true ∧
    isPayloadSuccess (getM cfg tr st url params cp).2 = false := by
  rw [getM_eq_miss cfg tr st url params cp hmiss]
  exact getMiss_snd_401_envelope cfg tr _ url params cp (cacheKeyOf url params) d0 t exp s2 d2
    hEn
    (by rw [cacheLookupState_transportCalls]; exact h0)
    (by rw [cacheLookupState_refreshCalls]; exact hre)
    (by rw [cacheLookupState_transportCalls]; exact h3)
    h4 h5

/-! ### Claim theorems -/

/-- Claim C1 (code-bug evidence): with no valid token, two
logically-concurrent `getToken()` tasks that both evaluate the
`!this.token || this.isTokenExpired()` guard before either refresh response
arrives (interleaving `[0, 1, 0, 1]`) issue TWO refresh exchanges, because
`getToken`/`refreshToken` have no in-flight-refresh coalescing; the fully
sequential interleaving `[0, 0, 1, 1]` issues one.  The claim (and the spec,
which itself flags this as a gap of the source) requires exactly one
exchange under every interleaving. -/
theorem C1_unserialized_concurrent_refresh :
    (runSchedule refreshOkOracle twoTasksNoToken [0, 1, 0, 1]).refreshExchanges = 2 ∧
    (runSchedule refreshOkOracle twoTasksNoToken [0, 0, 1, 1]).refreshExchanges = 1 := by
  exact ⟨rfl, rfl⟩

/-- Claim C2 counterexample: with every feature enabled and a valid token
held by the token manager, the pre-send interceptor chain stamps the issue
time and attaches a cancellation handle but leaves the headers exactly as
they came in — no authorization header is attached and the token manager is
never consulted (no refresh exchange is issued by the pipeline). -/
theorem C2_counterexample :
    (presend cfgAll stWithToken reqSecure).2.headers = [("X-Custom-Header", "foobar")] ∧
    ((presend cfgAll stWithToken reqSecure).2.headers.find?
      (fun h => h.1 == "Authorization")) = none ∧
    (presend cfgAll stWithToken reqSecure).2.startTime = some 0 ∧
    (presend cfgAll stWithToken reqSecure).2.cancelToken = some 0 ∧
    (presend cfgAll stWithToken reqSecure).1.refreshCalls = 0 := by
  exact ⟨rfl, rfl, rfl, rfl, rfl⟩

/-- Claim C2 (amended): the pre-send stage stamps the issue time (when
performance monitoring is enabled) and attaches a cancellation handle (when
cancellation is enabled), but for every configuration, state and request it
leaves the headers unchanged — no authorization header from the token
manager is attached, and the token manager is untouched (no refresh is
issued and the stored token is not read or written). -/
theorem C2_presend_no_auth_header (cfg : Cfg) (st : RunState) (c : ReqConfig) :
    (presend cfg st c).2.headers = c.headers ∧
    (presend cfg st c).2.startTime =
      (if cfg.performanceMonitoring then some st.now else c.startTime) ∧
    (presend cfg st c).2.cancelToken =
      (if cfg.requestCancellation then some st.nextCancelId else c.cancelToken) ∧
    (presend cfg st c).1.refreshCalls = st.refreshCalls ∧
    (presend cfg st c).1.token = st.token ∧
    (presend cfg st c).1.tokenExpiration = st.tokenExpiration := by
  exact ⟨(presend_config cfg st c).2.2.2.1, (presend_config cfg st c).2.2.2.2.2.2,
    (presend_config cfg st c).2.2.2.2.2.1, (presend_core cfg st c).2.2.2.2.2,
    (presend_core cfg st c).2.1, (presend_core cfg st c).2.2.1⟩

/-- Claim C3 counterexample: `get('/secure')` against a transport replying
401 then 200 with payload `"retried"`, refresh succeeding — the call
succeeds via the refresh-and-retry path but resolves with the RAW response
envelope (`this.customAxios.request(originalRequest)` is never unwrapped),
not with the unwrapped payload the claim promises for every success. -/
theorem C3_counterexample :
    isEnvelopeSuccess (getM cfgAll trAuth initState "/secure" [] none).2 = true ∧
    isPayloadSuccess (getM cfgAll trAuth initState "/secure" [] none).2 = false ∧
    envelopeData (getM cfgAll trAuth initState "/secure" [] none).2 =
      some (.str "retried") ∧
    (getM cfgAll trAuth initState "/secure" [] none).1.refreshCalls = 1 := by
  exact ⟨rfl, rfl, rfl, rfl⟩

/-- Claim C3 (amended): every call that succeeds WITHOUT the 401 recovery
path — a direct 2xx through `get`, `post`, `put` or `delete` — resolves with
the unwrapped response payload; a call that succeeds VIA the 401
refresh-and-retry path instead resolves with the raw response envelope of
the retried request (carrying the retried data), never with an unwrapped
payload. -/
theorem C3_success_payload_unwrapping :
    (∀ (cfg : Cfg) (tr : Transport) (st : RunState) (url : String)
        (params : List (String × JVal)) (cp : Option Bool) (s : Nat) (d : JVal),
      cacheTruthyHit cfg st (cacheKeyOf url params) = false →
      tr.http st.transportCalls = .reply s d → 200 ≤ s → s < 300 →
      (getM cfg tr st url params cp).2 = .ok (.payload d)) ∧
    (∀ (cfg : Cfg) (tr : Transport) (st : RunState) (url : String) (cp : Option Bool)
        (s : Nat) (d : JVal),
      tr.http st.transportCalls = .reply s d → 200 ≤ s → s < 300 →
      (postM cfg tr st url cp).2 = .ok (.payload d)) ∧
    (∀ (cfg : Cfg) (tr : Transport) (st : RunState) (url : String) (cp : Option Bool)
        (s : Nat) (d : JVal),
      tr.http st.transportCalls = .reply s d → 200 ≤ s → s < 300 →
      (putM cfg tr st url cp).2 = .ok (.payload d)) ∧
    (∀ (cfg : Cfg) (tr : Transport) (st : RunState) (url : String) (cp : Option Bool)
        (s : Nat) (d : JVal),
      tr.http st.transportCalls = .reply s d → 200 ≤ s → s < 300 →
      (deleteM cfg tr st url cp).2 = .ok (.payload d)) ∧
    (∀ (cfg : Cfg) (tr : Transport) (st : RunState) (url : String)
        (params : List (String × JVal)) (cp : Option Bool) (d0 : JVal) (t : String)
        (exp s2 : Nat) (d2 : JVal),
      cacheTruthyHit cfg st (cacheKeyOf url params) = false →
      cfg.tokenRefreshEnabled = true →
      tr.http st.transportCalls = .reply 401 d0 →
      tr.refresh st.refreshCalls = .ok t exp →
      tr.http (st.transportCalls + 1) = .reply s2 d2 → 200 ≤ s2 → s2 < 300 →
      envelopeData (getM cfg tr st url params cp).2 = some d2 ∧
      isEnvelopeSuccess (getM cfg tr st url params cp).2 = true ∧
      isPayloadSuccess (getM cfg tr st url params cp).2 = false) := by
  refine ⟨?_, ?_, ?_, ?_, ?_⟩
  · intro cfg tr st url params cp s d hmiss h h1 h2
    exact getM_snd_ok cfg tr st url params cp s d hmiss h h1 h2
  · intro cfg tr st url cp s d h h1 h2
    exact sendVerb_snd_ok cfg tr st "post" url cp s d h h1 h2
  · intro cfg tr st url cp s d h h1 h2
    exact sendVerb_snd_ok cfg tr st "put" url cp s d h h1 h2
  · intro cfg tr st url cp s d h h1 h2
    exact sendVerb_snd_ok cfg tr st "delete" url cp s d h h1 h2
  · intro cfg tr st url params cp d0 t exp s2 d2 hmiss hEn h0 hre h3 h4 h5
    exact getM_snd_401_envelope cfg tr st url params cp d0 t exp s2 d2 hmiss hEn h0 hre h3 h4 h5

/-- Witness for C3 (amended), instantiating the direct-success part at a
concrete transport and the retry part at `trAuth`. -/
theorem C3_success_payload_unwrapping_witness :
    (getM cfgAll trOk initState "/data" [] none).2 = .ok (.payload (.str "v")) ∧
    (postM cfgAll trOk initState "/data" none).2 = .ok (.payload (.str "v")) ∧
    envelopeData (getM cfgAll trAuth initState "/secure" [] none).2 =
      some (.str "retried") := by
  refine ⟨?_, ?_, ?_⟩
  · exact C3_success_payload_unwrapping.1 cfgAll trOk initState "/data" [] none 200 (.str "v")
      rfl rfl (by decide) (by decide)
  · exact C3_success_payload_unwrapping.2.1 cfgAll trOk initState "/data" none 200 (.str "v")
      rfl (by decide) (by decide)
  · exact (C3_success_payload_unwrapping.2.2.2.2 cfgAll trAuth initState "/secure" [] none
      (.str "unauthorized") "T2" 3600 200 (.str "retried") rfl rfl rfl rfl rfl
      (by decide) (by decide)).1

/-- Claim C4: retry depth is at most one per original call: any `get` (and
any `post`/`put`/`delete` via `sendVerb`) issues at most two transport
exchanges (the original and at most one retry) and at most one refresh
exchange; moreover a retried request that itself fails with any non-2xx
status is surfaced as that failure with exactly one refresh and one
re-issue — it is not retried or refresh-recovered again. -/
theorem C4_retry_depth_at_most_one :
    (∀ (cfg : Cfg) (tr : Transport) (st : RunState) (url : String)
        (params : List (String × JVal)) (cp : Option Bool),
      (getM cfg tr st url params cp).1.transportCalls ≤ st.transportCalls + 2 ∧
      (getM cfg tr st url params cp).1.refreshCalls ≤ st.refreshCalls + 1) ∧
    (∀ (cfg : Cfg) (tr : Transport) (st : RunState) (method url : String) (cp : Option Bool),
      (sendVerb cfg tr st method url cp).1.transportCalls ≤ st.transportCalls + 2 ∧
      (sendVerb cfg tr st method url cp).1.refreshCalls ≤ st.refreshCalls + 1) ∧
    (∀ (cfg : Cfg) (tr : Transport) (st : RunState) (d : JVal) (c : ReqConfig) (t : String)
        (exp s2 : Nat) (d2 : JVal),
      cfg.tokenRefreshEnabled = true →
      tr.refresh st.refreshCalls = .ok t exp →
      tr.http st.transportCalls = .reply s2 d2 →
      ¬(200 ≤ s2 ∧ s2 < 300) →
      errStatus (handleError cfg tr st (.httpResponse 401 d c)).2 = some s2 ∧
      (handleError cfg tr st (.httpResponse 401 d c)).1.refreshCalls = st.refreshCalls + 1 ∧
      (handleError cfg tr st (.httpResponse 401 d c)).1.transportCalls =
        st.transportCalls + 1) := by
  refine ⟨?_, ?_, ?_⟩
  · intro cfg tr st url params cp
    exact getM_le cfg tr st url params cp
  · intro cfg tr st method url cp
    exact sendVerb_le cfg tr st method url cp
  · intro cfg tr st d c t exp s2 d2 hEn hre h2 hn
    rw [handleError_401_refresh_ok cfg tr st d c t exp hEn hre]
    rcases hd2 : dispatch cfg tr (refreshToken tr st).1 c with ⟨st2, r2⟩
    have hr2 := dispatch_snd cfg tr (refreshToken tr st).1 c
    rw [hd2] at hr2
    rw [refreshToken_transportCalls] at hr2
    simp only [h2] at hr2
    rw [if_neg hn] at hr2
    have hT := dispatch_transportCalls cfg tr (refreshToken tr st).1 c
    have hR := dispatch_refreshCalls cfg tr (refreshToken tr st).1 c
    rw [hd2] at hT hR
    simp at hT hR
    rw [hr2]
    exact ⟨rfl, by simp [hR], by simp [hT]⟩

/-- Witness for C4, exercising the third part: a retried request that fails
again with 401 is surfaced as that second 401 after exactly one refresh and
one re-issue. -/
theorem C4_retry_depth_at_most_one_witness :
    errStatus (handleError cfgAll
        { http := fun _ => .reply 401 (.str "unauthorized"), refresh := fun _ => .ok "T2" 3600 }
        initState (.httpResponse 401 (.str "unauthorized") reqSecure)).2 = some 401 ∧
    (handleError cfgAll
        { http := fun _ => .reply 401 (.str "unauthorized"), refresh := fun _ => .ok "T2" 3600 }
        initState (.httpResponse 401 (.str "unauthorized") reqSecure)).1.refreshCalls = 1 ∧
    (handleError cfgAll
        { http := fun _ => .reply 401 (.str "unauthorized"), refresh := fun _ => .ok "T2" 3600 }
        initState (.httpResponse 401 (.str "unauthorized") reqSecure)).1.transportCalls = 1 := by
  exact C4_retry_depth_at_most_one.2.2 cfgAll
    { http := fun _ => .reply 401 (.str "unauthorized"), refresh := fun _ => .ok "T2" 3600 }
    initState (.str "unauthorized") reqSecure "T2" 3600 401 (.str "unauthorized")
    rfl rfl rfl (by decide)

/-- An entry just written by `cacheSet` is the one `find?` returns. -/
theorem cacheSet_find (c : List (String × JVal × Nat)) (key : String) (v : JVal) (t : Nat) :
    (cacheSet c key v t).find? (fun e => e.1 == key) = some (key, v, t) := by
  unfold cacheSet
  simp [List.find?]

/-- Reading a key right after `cacheSet` wrote it, within the TTL, returns
the written value. -/
theorem lookupCache_after_set (cfg : Cfg) (stA : RunState) (key : String) (d : JVal)
    (c0 : List (String × JVal × Nat)) (tIns : Nat)
    (hc : cfg.cacheEnabled = true)
    (hcac : stA.cache = cacheSet c0 key d tIns)
    (httl : stA.now < tIns + cfg.cacheTTL * 1000) :
    lookupCache cfg stA key = some d := by
  unfold lookupCache
  rw [if_pos hc, hcac, cacheSet_find]
  simp [httl]

/-- `handleError` never un-issues a transport exchange. -/
theorem handleError_transport_ge (cfg : Cfg) (tr : Transport) (st : RunState) (e : AErr) :
    st.transportCalls ≤ (handleError cfg tr st e).1.transportCalls := by
  cases e with
  | httpResponse s d c =>
    by_cases h : s = 401 ∧ cfg.tokenRefreshEnabled = true
    · obtain ⟨hs, hEn⟩ := h
      subst hs
      cases hre : tr.refresh st.refreshCalls with
      | ok t exp =>
        rw [handleError_401_refresh_ok cfg tr st d c t exp hEn hre]
        rcases hd2 : dispatch cfg tr (refreshToken tr st).1 c with ⟨st2, r2⟩
        have hT := dispatch_transportCalls cfg tr (refreshToken tr st).1 c
        rw [hd2] at hT
        simp at hT
        cases r2 <;> simp [hT] <;> omega
      | err e2 =>
        rw [handleError_401_refresh_err cfg tr st d c e2 hEn hre]
        simp
    · rw [handleError_not401 cfg tr st s d c h]
  | netRequest u => rw [handleError_netRequest]
  | other m => rw [handleError_other]

/-- `getMiss` always dispatches: the transport is invoked at least once. -/
theorem getMiss_transport_ge (cfg : Cfg) (tr : Transport) (st : RunState) (url : String)
    (params : List (String × JVal)) (cp : Option Bool) (key : String) :
    st.transportCalls + 1 ≤ (getMiss cfg tr st url params cp key).1.transportCalls := by
  unfold getMiss
  rcases hd : dispatch cfg tr st (getReqConfig url params cp) with ⟨st1, r⟩
  have ht := dispatch_transportCalls cfg tr st (getReqConfig url params cp)
  rw [hd] at ht
  simp at ht
  cases r with
  | ok resp =>
    simp [apply_ite RunState.transportCalls, ht]
  | error e =>
    change st.transportCalls + 1 ≤ (handleError cfg tr st1 e).1.transportCalls
    have := handleError_transport_ge cfg tr st1 e
    omega

/-- Claim C5 counterexample: `get('/data')` twice within the TTL against a
transport that returns the falsy payload `0`: the first call succeeds with
payload `0`, yet the second call re-invokes the transport (two dispatches in
total), because `if (cachedResponse)` treats the cached falsy value as a
miss.  The claim promises at most one transport invocation for any payload
of a successful first call. -/
theorem C5_counterexample :
    (getM cfgAll trZero initState "/data" [("key", .str "value")] none).2 =
      .ok (.payload (.num 0)) ∧
    (getM cfgAll trZero
        { (getM cfgAll trZero initState "/data" [("key", .str "value")] none).1 with now := 1 }
        "/data" [("key", .str "value")] none).2 = .ok (.payload (.num 0)) ∧
    (getM cfgAll trZero
        { (getM cfgAll trZero initState "/data" [("key", .str "value")] none).1 with now := 1 }
        "/data" [("key", .str "value")] none).1.transportCalls = 2 := by
  exact ⟨rfl, rfl, rfl⟩

/-- Claim C5 (amended): for two `get` calls with the same url and params,
caching enabled, where the first misses the cache and succeeds with a
TRUTHY payload, and the second is issued within the cache TTL of the first,
the transport is invoked exactly once across both calls and both calls
return the identical payload. -/
theorem C5_second_read_cached (cfg : Cfg) (tr : Transport) (st : RunState) (url : String)
    (params : List (String × JVal)) (t1 : Nat) (s : Nat) (d : JVal)
    (hc : cfg.cacheEnabled = true)
    (hmiss : cacheTruthyHit cfg st (cacheKeyOf url params) = false)
    (hreply : tr.http st.transportCalls = .reply s d)
    (h1 : 200 ≤ s) (h2 : s < 300)
    (htruthy : d.truthy = true)
    (httl : t1 < st.now + cfg.cacheTTL * 1000) :
    (getM cfg tr st url params none).2 = .ok (.payload d) ∧
    (getM cfg tr { (getM cfg tr st url params none).1 with now := t1 }
        url params none).2 = .ok (.payload d) ∧
    (getM cfg tr { (getM cfg tr st url params none).1 with now := t1 }
        url params none).1.transportCalls = st.transportCalls + 1 := by
  have hA : getM cfg tr st url params none =
      ({ (dispatch cfg tr (pushEvent st (Event.cacheLookup (cacheKeyOf url params)))
            (getReqConfig url params none)).1 with
          cache := cacheSet st.cache (cacheKeyOf url params) d st.now },
       .ok (.payload d)) := by
    rw [getM_eq_miss cfg tr st url params none hmiss, if_pos hc]
    rw [getMiss_eq_ok cfg tr (pushEvent st (Event.cacheLookup (cacheKeyOf url params)))
      url params none (cacheKeyOf url params) s d (by exact hreply) h1 h2]
    rw [if_pos hc]
    rfl
  rw [hA]
  have hl : lookupCache cfg
      ({ { (dispatch cfg tr (pushEvent st (Event.cacheLookup (cacheKeyOf url params)))
              (getReqConfig url params none)).1 with
            cache := cacheSet st.cache (cacheKeyOf url params) d st.now } with now := t1 })
      (cacheKeyOf url params) = some d := by
    exact lookupCache_after_set cfg _ (cacheKeyOf url params) d st.cache st.now hc rfl httl
  rw [getM_eq_hit cfg tr _ url params none d hl htruthy]
  refine ⟨rfl, rfl, ?_⟩
  rw [cacheLookupState_transportCalls]
  simp [dispatch_transportCalls]

/-- Witness for C5 (amended) at a concrete transport and truthy payload. -/
theorem C5_second_read_cached_witness :
    (getM cfgAll trOk initState "/data" [("key", .str "value")] none).2 =
      .ok (.payload (.str "v")) ∧
    (getM cfgAll trOk
        { (getM cfgAll trOk initState "/data" [("key", .str "value")] none).1 with now := 1 }
        "/data" [("key", .str "value")] none).2 = .ok (.payload (.str "v")) ∧
    (getM cfgAll trOk
        { (getM cfgAll trOk initState "/data" [("key", .str "value")] none).1 with now := 1 }
        "/data" [("key", .str "value")] none).1.transportCalls = 0 + 1 := by
  exact C5_second_read_cached cfgAll trOk initState "/data" [("key", .str "value")] 1 200
    (.str "v") rfl rfl rfl (by decide) (by decide) rfl (by decide)

/-- Claim C10: a present but falsy cached value (for example `null`, `0`,
`false` or the empty string) is treated exactly as a cache miss by `get`:
the call proceeds through the miss path and the transport is invoked
again. -/
theorem C10_falsy_cached_value_is_miss (cfg : Cfg) (tr : Transport) (st : RunState)
    (url : String) (params : List (String × JVal)) (cp : Option Bool) (v : JVal)
    (hc : cfg.cacheEnabled = true)
    (hl : lookupCache cfg st (cacheKeyOf url params) = some v)
    (hfalsy : v.truthy = false) :
    getM cfg tr st url params cp =
      getMiss cfg tr (pushEvent st (.cacheLookup (cacheKeyOf url params))) url params cp
        (cacheKeyOf url params) ∧
    st.transportCalls + 1 ≤ (getM cfg tr st url params cp).1.transportCalls := by
  have heq : getM cfg tr st url params cp =
      getMiss cfg tr (pushEvent st (.cacheLookup (cacheKeyOf url params))) url params cp
        (cacheKeyOf url params) := by
    simp only [getM]
    rw [hl]
    simp [hfalsy, hc]
  refine ⟨heq, ?_⟩
  rw [heq]
  have := getMiss_transport_ge cfg tr (pushEvent st (.cacheLookup (cacheKeyOf url params)))
    url params cp (cacheKeyOf url params)
  simpa using this

/-- Witness for C10: a cached `0` within TTL leads to a fresh dispatch. -/
theorem C10_falsy_cached_value_is_miss_witness :
    getM cfgAll trZero stZeroCached "/data" [] none =
      getMiss cfgAll trZero
        (pushEvent stZeroCached (.cacheLookup (cacheKeyOf "/data" [])))
        "/data" [] none (cacheKeyOf "/data" []) ∧
    stZeroCached.transportCalls + 1 ≤
      (getM cfgAll trZero stZeroCached "/data" [] none).1.transportCalls := by
  exact C10_falsy_cached_value_is_miss cfgAll trZero stZeroCached
    "/data" [] none (JVal.num 0) rfl (by decide) rfl

/-- `handleError` on a response error keeps the registry record of the
originating request (when cancellation is enabled): the non-retry branches
do not touch the registry, and the retry re-registers the same identity. -/
theorem handleError_httpResponse_pending (cfg : Cfg) (tr : Transport) (st : RunState)
    (s : Nat) (d : JVal) (ec : ReqConfig)
    (hcanc : cfg.requestCancellation = true)
    (hbefore : (lookupPending st.pending (getRequestId ec)).isSome = true) :
    (lookupPending (handleError cfg tr st (.httpResponse s d ec)).1.pending
      (getRequestId ec)).isSome = true := by
  by_cases h : s = 401 ∧ cfg.tokenRefreshEnabled = true
  · obtain ⟨hs, hEn⟩ := h
    subst hs
    cases hre : tr.refresh st.refreshCalls with
    | ok t exp =>
      rw [handleError_401_refresh_ok cfg tr st d ec t exp hEn hre]
      rcases hd2 : dispatch cfg tr (refreshToken tr st).1 ec with ⟨st2, r2⟩
      have hp := dispatch_pending cfg tr (refreshToken tr st).1 ec
      rw [hd2] at hp
      simp at hp
      have ht := presend_pending_tracks cfg (refreshToken tr st).1 ec hcanc
      cases r2 <;> simp [hp, ht]
    | err e2 =>
      rw [handleError_401_refresh_err cfg tr st d ec e2 hEn hre]
      simpa using hbefore
  · rw [handleError_not401 cfg tr st s d ec h]
    simpa using hbefore

/-- After `getMiss` settles — success, failure, or a refresh-retry round —
the registry still holds a record for the request's identity: nothing in
the settlement path calls `delete` on the registry. -/
theorem getMiss_pending_tracked (cfg : Cfg) (tr : Transport) (st : RunState) (url : String)
    (params : List (String × JVal)) (cp : Option Bool) (key : String)
    (hcanc : cfg.requestCancellation = true) :
    (lookupPending (getMiss cfg tr st url params cp key).1.pending
      (getRequestId (getReqConfig url params cp))).isSome = true := by
  unfold getMiss
  rcases hd : dispatch cfg tr st (getReqConfig url params cp) with ⟨st1, r⟩
  have hp1 := dispatch_pending cfg tr st (getReqConfig url params cp)
  rw [hd] at hp1
  simp at hp1
  have hp2 := presend_pending_tracks cfg st (getReqConfig url params cp) hcanc
  have hr := dispatch_snd cfg tr st (getReqConfig url params cp)
  rw [hd] at hr
  simp at hr
  cases htr : tr.http st.transportCalls with
  | reply s d =>
    rw [htr] at hr
    dsimp only at hr
    by_cases h2xx : 200 ≤ s ∧ s < 300
    · rw [if_pos h2xx] at hr
      rw [hr]
      simp [apply_ite RunState.pending, hp1, hp2]
    · rw [if_neg h2xx] at hr
      rw [hr]
      have hid : getRequestId (presend cfg st (getReqConfig url params cp)).2 =
          getRequestId (getReqConfig url params cp) :=
        getRequestId_presend cfg st (getReqConfig url params cp)
      have hb : (lookupPending st1.pending
          (getRequestId (presend cfg st (getReqConfig url params cp)).2)).isSome = true := by
        rw [hid, hp1, hp2]
        rfl
      have := handleError_httpResponse_pending cfg tr st1 s d
        (presend cfg st (getReqConfig url params cp)).2 hcanc hb
      rw [hid] at this
      exact this
  | netErr =>
    rw [htr] at hr
    dsimp only at hr
    rw [hr]
    dsimp only
    rw [handleError_netRequest]
    simp [hp1, hp2]

/-- Claim C6 counterexample: a single `get('/a')` that settles successfully
leaves its record in the pending-request registry — the registry entry
outlives the settled request, because no settlement path ever deletes it. -/
theorem C6_counterexample :
    (getM cfgAll trOk initState "/a" [] none).2 = .ok (.payload (.str "v")) ∧
    (getM cfgAll trOk initState "/a" [] none).1.pending = [("GET/a\x7b\x7d", 0)] := by
  exact ⟨rfl, rfl⟩

/-- Claim C6 (amended): a pending-request registry record is removed only
when a later request with the same identity (and `cancelPrevious` not
`false`) supersedes it; settlement does not remove it — after any `get`
that dispatched (cache guard did not fire), with cancellation enabled, the
registry still holds a record for that request's identity. -/
theorem C6_registry_record_survives_settlement (cfg : Cfg) (tr : Transport) (st : RunState)
    (url : String) (params : List (String × JVal)) (cp : Option Bool)
    (hcanc : cfg.requestCancellation = true)
    (hmiss : cacheTruthyHit cfg st (cacheKeyOf url params) = false) :
    (lookupPending (getM cfg tr st url params cp).1.pending
      (getRequestId (getReqConfig url params cp))).isSome = true := by
  rw [getM_eq_miss cfg tr st url params cp hmiss]
  exact getMiss_pending_tracked cfg tr _ url params cp (cacheKeyOf url params) hcanc

/-- Witness for C6 (amended) on a concrete successful `get`. -/
theorem C6_registry_record_survives_settlement_witness :
    (lookupPending (getM cfgAll trOk initState "/a" [] none).1.pending
      (getRequestId (getReqConfig "/a" [] none))).isSome = true := by
  exact C6_registry_record_survives_settlement cfgAll trOk initState "/a" [] none rfl rfl

/-- Claim C7: when the refresh exchange fails, `refreshToken` leaves
`this.token` and `this.tokenExpiration` exactly as they were and rejects
with the refresh exchange's own error; through the 401 recovery path that
same refresh error — not the original 401 — is what the caller receives,
and the original request is not re-issued. -/
theorem C7_refresh_failure_state_unchanged (cfg : Cfg) (tr : Transport) (st : RunState)
    (e : AErr) (d : JVal) (c : ReqConfig)
    (h : tr.refresh st.refreshCalls = .err e)
    (hEn : cfg.tokenRefreshEnabled = true) :
    (refreshToken tr st).1.token = st.token ∧
    (refreshToken tr st).1.tokenExpiration = st.tokenExpiration ∧
    (refreshToken tr st).2 = .error e ∧
    (handleError cfg tr st (.httpResponse 401 d c)).2 = .error e ∧
    (handleError cfg tr st (.httpResponse 401 d c)).1.token = st.token ∧
    (handleError cfg tr st (.httpResponse 401 d c)).1.tokenExpiration = st.tokenExpiration ∧
    (handleError cfg tr st (.httpResponse 401 d c)).1.transportCalls = st.transportCalls := by
  rw [refreshToken_eq_err tr st e h, handleError_401_refresh_err cfg tr st d c e hEn h]
  exact ⟨rfl, rfl, rfl, rfl, rfl, rfl, rfl⟩

/-- Witness for C7 at a state already holding a token. -/
theorem C7_refresh_failure_state_unchanged_witness :
    (refreshToken trRefreshFail stWithToken).1.token = stWithToken.token ∧
    (refreshToken trRefreshFail stWithToken).1.tokenExpiration = stWithToken.tokenExpiration ∧
    (refreshToken trRefreshFail stWithToken).2 =
      .error (.netRequest "https://api.example.com/refresh-token") ∧
    (handleError cfgAll trRefreshFail stWithToken
        (.httpResponse 401 (.str "unauthorized") reqSecure)).2 =
      .error (.netRequest "https://api.example.com/refresh-token") ∧
    (handleError cfgAll trRefreshFail stWithToken
        (.httpResponse 401 (.str "unauthorized") reqSecure)).1.token = stWithToken.token ∧
    (handleError cfgAll trRefreshFail stWithToken
        (.httpResponse 401 (.str "unauthorized") reqSecure)).1.tokenExpiration =
      stWithToken.tokenExpiration ∧
    (handleError cfgAll trRefreshFail stWithToken
        (.httpResponse 401 (.str "unauthorized") reqSecure)).1.transportCalls =
      stWithToken.transportCalls := by
  exact C7_refresh_failure_state_unchanged cfgAll trRefreshFail stWithToken
    (.netRequest "https://api.example.com/refresh-token") (.str "unauthorized") reqSecure
    rfl rfl

/-- Claim C8: a 404 reply makes `get` fail with the 404 response error
(`NotFoundError` in the spec's taxonomy) propagated unchanged, with no
refresh exchange and no retry: exactly the one original dispatch. -/
theorem C8_404_no_refresh_no_retry (cfg : Cfg) (tr : Transport) (st : RunState)
    (url : String) (params : List (String × JVal)) (cp : Option Bool) (d : JVal)
    (hmiss : cacheTruthyHit cfg st (cacheKeyOf url params) = false)
    (hreply : tr.http st.transportCalls = .reply 404 d) :
    errStatus (getM cfg tr st url params cp).2 = some 404 ∧
    errData (getM cfg tr st url params cp).2 = some d ∧
    (getM cfg tr st url params cp).1.refreshCalls = st.refreshCalls ∧
    (getM cfg tr st url params cp).1.transportCalls = st.transportCalls + 1 := by
  rw [getM_eq_miss cfg tr st url params cp hmiss]
  rw [getMiss_eq_reply_err cfg tr _ url params cp (cacheKeyOf url params) 404 d
    (by rw [cacheLookupState_transportCalls]; exact hreply) (by decide)]
  rw [handleError_not401 cfg tr _ 404 d _ (by simp)]
  refine ⟨rfl, rfl, ?_, ?_⟩
  · rw [dispatch_refreshCalls, cacheLookupState_refreshCalls]
  · rw [dispatch_transportCalls, cacheLookupState_transportCalls]

/-- Witness for C8: `get('/missing')` against a 404-transport. -/
theorem C8_404_no_refresh_no_retry_witness :
    errStatus (getM cfgAll trMissing initState "/missing" [] none).2 = some 404 ∧
    errData (getM cfgAll trMissing initState "/missing" [] none).2 =
      some (.str "not found") ∧
    (getM cfgAll trMissing initState "/missing" [] none).1.refreshCalls =
      initState.refreshCalls ∧
    (getM cfgAll trMissing initState "/missing" [] none).1.transportCalls =
      initState.transportCalls + 1 := by
  exact C8_404_no_refresh_no_retry cfgAll trMissing initState "/missing" [] none
    (.str "not found") rfl rfl

/-- `dispatch` only appends events. -/
theorem dispatch_extend (cfg : Cfg) (tr : Transport) (st : RunState) (c : ReqConfig) :
    ∃ m, (dispatch cfg tr st c).1.events = st.events ++ m := by
  obtain ⟨mid, hmid⟩ := presend_extend cfg st c
  refine ⟨mid ++ [Event.dispatchReq (presend cfg st c).2.method (presend cfg st c).2.url], ?_⟩
  rw [dispatch_events, hmid, List.append_assoc]

/-- `handleError` only appends events. -/
theorem handleError_extend (cfg : Cfg) (tr : Transport) (st : RunState) (e : AErr) :
    ∃ m, (handleError cfg tr st e).1.events = st.events ++ m := by
  cases e with
  | netRequest u => exact ⟨[], by rw [handleError_netRequest]; simp⟩
  | other m2 => exact ⟨[], by rw [handleError_other]; simp⟩
  | httpResponse s d ec =>
    by_cases h : s = 401 ∧ cfg.tokenRefreshEnabled = true
    · obtain ⟨hs, hEn⟩ := h
      subst hs
      cases hre : tr.refresh st.refreshCalls with
      | err e2 =>
        exact ⟨[Event.refreshCall],
          by rw [handleError_401_refresh_err cfg tr st d ec e2 hEn hre]; simp⟩
      | ok t exp =>
        rw [handleError_401_refresh_ok cfg tr st d ec t exp hEn hre]
        rcases hd2 : dispatch cfg tr (refreshToken tr st).1 ec with ⟨st2, r2⟩
        obtain ⟨m2, hm2⟩ := dispatch_extend cfg tr (refreshToken tr st).1 ec
        rw [hd2] at hm2
        simp only [Prod.fst] at hm2
        rw [refreshToken_events] at hm2
        cases r2 <;>
          exact ⟨[Event.refreshCall] ++ m2, by dsimp only; rw [hm2]; simp [List.append_assoc]⟩
    · exact ⟨[], by rw [handleError_not401 cfg tr st s d ec h]; simp⟩

/-- `getMiss` only appends events. -/
theorem getMiss_extend (cfg : Cfg) (tr : Transport) (st : RunState) (url : String)
    (params : List (String × JVal)) (cp : Option Bool) (key : String) :
    ∃ m, (getMiss cfg tr st url params cp key).1.events = st.events ++ m := by
  unfold getMiss
  rcases hd : dispatch cfg tr st (getReqConfig url params cp) with ⟨st1, r⟩
  obtain ⟨m1, hm1⟩ := dispatch_extend cfg tr st (getReqConfig url params cp)
  rw [hd] at hm1
  simp only [Prod.fst] at hm1
  cases r with
  | ok resp =>
    dsimp only
    refine ⟨m1, ?_⟩
    rw [← hm1]
    split <;> rfl
  | error e =>
    dsimp only
    obtain ⟨m2, hm2⟩ := handleError_extend cfg tr st1 e
    exact ⟨m1 ++ m2, by rw [hm2, hm1, List.append_assoc]⟩

/-- The cancel-before-dispatch discipline survives `handleError`: every
branch appends at most `[refreshCall]` and, on the retry branch, a block
that itself ends with the retried dispatch event. -/
theorem handleError_cancels (cfg : Cfg) (tr : Transport) (st : RunState) (e : AErr)
    (hst : cancelsBeforeDispatch st.events = true) :
    cancelsBeforeDispatch (handleError cfg tr st e).1.events = true := by
  cases e with
  | netRequest u => rw [handleError_netRequest]; exact hst
  | other m2 => rw [handleError_other]; exact hst
  | httpResponse s d ec =>
    by_cases h : s = 401 ∧ cfg.tokenRefreshEnabled = true
    · obtain ⟨hs, hEn⟩ := h
      subst hs
      cases hre : tr.refresh st.refreshCalls with
      | err e2 =>
        rw [handleError_401_refresh_err cfg tr st d ec e2 hEn hre]
        dsimp only
        simp only [pushEvent_events]
        exact cancelsBeforeDispatch_append _ _ hst (by decide)
      | ok t exp =>
        rw [handleError_401_refresh_ok cfg tr st d ec t exp hEn hre]
        rcases hd2 : dispatch cfg tr (refreshToken tr st).1 ec with ⟨st2, r2⟩
        obtain ⟨mid2, hmid2⟩ := presend_extend cfg (refreshToken tr st).1 ec
        have hev2 : st2.events = ((st.events ++ [Event.refreshCall]) ++ mid2) ++
            [Event.dispatchReq (presend cfg (refreshToken tr st).1 ec).2.method
              (presend cfg (refreshToken tr st).1 ec).2.url] := by
          have hx := dispatch_events cfg tr (refreshToken tr st).1 ec
          rw [hd2] at hx
          simp only [Prod.fst] at hx
          rw [hmid2, refreshToken_events] at hx
          exact hx
        cases r2 <;> dsimp only <;> rw [hev2] <;>
          exact cancelsBeforeDispatch_snoc_dispatch _ _ _
    · rw [handleError_not401 cfg tr st s d ec h]
      exact hst

/-- Every event trace of `getMiss` keeps each duplicate-cancellation event
strictly before a later dispatch event. -/
theorem getMiss_cancels (cfg : Cfg) (tr : Transport) (st : RunState) (url : String)
    (params : List (String × JVal)) (cp : Option Bool) (key : String) :
    cancelsBeforeDispatch (getMiss cfg tr st url params cp key).1.events = true := by
  unfold getMiss
  rcases hd : dispatch cfg tr st (getReqConfig url params cp) with ⟨st1, r⟩
  obtain ⟨mid, hmid⟩ := presend_extend cfg st (getReqConfig url params cp)
  have hev1 : st1.events = (st.events ++ mid) ++
      [Event.dispatchReq (presend cfg st (getReqConfig url params cp)).2.method
        (presend cfg st (getReqConfig url params cp)).2.url] := by
    have hx := dispatch_events cfg tr st (getReqConfig url params cp)
    rw [hd] at hx
    simp only [Prod.fst] at hx
    rw [hmid] at hx
    exact hx
  have hst1 : cancelsBeforeDispatch st1.events = true := by
    rw [hev1]
    exact cancelsBeforeDispatch_snoc_dispatch _ _ _
  cases r with
  | ok resp =>
    dsimp only
    simp only [apply_ite RunState.events, ite_self]
    exact hst1
  | error e =>
    dsimp only
    exact handleError_cancels cfg tr st1 e hst1

/-- Claim C9 counterexample: on a concrete cacheable `get` with every
feature enabled, a registry registration does occur, but the very first
observable event is the cache lookup — the registry step does NOT precede
the cache consultation, contradicting the claimed ordering. -/
theorem C9_counterexample :
    registryStepBeforeCacheConsult (getM cfgAll trOk initState "/a" [] none).1.events = false ∧
    ((getM cfgAll trOk initState "/a" [] none).1.events.findIdx? isTrackEvent).isSome = true ∧
    (getM cfgAll trOk initState "/a" [] none).1.events.findIdx? isCacheLookupEvent =
      some 0 := by
  exact ⟨rfl, rfl, rfl⟩

/-- Claim C9 (amended): for every read request with caching enabled, the
Response Cache is consulted FIRST — the cache lookup is the first observable
event of the call, before any registry step or dispatch — and every
cancellation of a superseded duplicate still happens strictly before a later
dispatch (the superseding request's). -/
theorem C9_cache_consulted_first (cfg : Cfg) (tr : Transport) (st : RunState) (url : String)
    (params : List (String × JVal)) (cp : Option Bool)
    (hev : st.events = []) (hc : cfg.cacheEnabled = true) :
    (∃ rest, (getM cfg tr st url params cp).1.events =
      Event.cacheLookup (cacheKeyOf url params) :: rest) ∧
    cancelsBeforeDispatch (getM cfg tr st url params cp).1.events = true := by
  by_cases hmiss : cacheTruthyHit cfg st (cacheKeyOf url params) = false
  · rw [getM_eq_miss cfg tr st url params cp hmiss, if_pos hc]
    have hL : (pushEvent st (Event.cacheLookup (cacheKeyOf url params))).events =
        [Event.cacheLookup (cacheKeyOf url params)] := by
      rw [pushEvent_events, hev]
      rfl
    constructor
    · obtain ⟨m, hm⟩ := getMiss_extend cfg tr
        (pushEvent st (Event.cacheLookup (cacheKeyOf url params))) url params cp
        (cacheKeyOf url params)
      refine ⟨m, ?_⟩
      rw [hm, hL]
      rfl
    · exact getMiss_cancels cfg tr _ url params cp (cacheKeyOf url params)
  · simp at hmiss
    unfold cacheTruthyHit at hmiss
    rcases hl : lookupCache cfg st (cacheKeyOf url params) with _ | v
    · rw [hl] at hmiss
      simp at hmiss
    · rw [hl] at hmiss
      simp at hmiss
      rw [getM_eq_hit cfg tr st url params cp v hl hmiss, if_pos hc]
      constructor
      · exact ⟨[], by simp [hev]⟩
      · simp [hev, cancelsBeforeDispatch, isCancelEvent]

/-- Witness for C9 (amended) on a concrete run. -/
theorem C9_cache_consulted_first_witness :
    (∃ rest, (getM cfgAll trOk initState "/a" [] none).1.events =
      Event.cacheLookup (cacheKeyOf "/a" []) :: rest) ∧
    cancelsBeforeDispatch (getM cfgAll trOk initState "/a" [] none).1.events = true := by
  exact C9_cache_consulted_first cfgAll trOk initState "/a" [] none rfl rfl

end AxNext

